import Mathlib

/-!
# rpc-go: local management channel, mode dispatch and capability decoder

A shallow embedding of

* `internal/lms.go` (`LMSConnection.Connect`, `Close`, `Listen`),
* `cmd/main.go` (`handleFlags`, `runRPC`),
* the capability decoder `DecodeAMT` exercised by `internal/local/info_test.go`.

Side effects (log lines, channel sends, calls into collaborating packages) are
recorded as an explicit, ordered list of events next to the returned values.
-/

namespace RpcGo

/-! ## Go values shared by the packages -/

/-- Go `error` values as this code observes them: the sentinel `io.EOF`
(compared by identity) or any other error, known through its `Error()` text. -/
inductive GoError where
  | EOF
  | other (msg : String)
  deriving DecidableEq, Repr

/-- The `Error()` method. -/
def GoError.Error : GoError → String
  | .EOF => "EOF"
  | .other msg => msg

/-- Go `errors.New`. -/
def errors.New (msg : String) : GoError := .other msg

/-- Go `strings.ContainsAny(s, chars)`: reports whether any code point of
`chars` occurs in `s`. -/
def strings.ContainsAny (s chars : String) : Bool :=
  s.toList.any (fun c => chars.toList.contains c)

/-- Go `strings.Contains(s, substr)`, used only to phrase what a timeout error is. -/
def strings.Contains (s substr : String) : Bool :=
  s.toList.tails.any (fun t => substr.toList.isPrefixOf t)

/-! ## `internal/lms.go` -/

/-- Outcome of one `Connection.Read(tmp)`: the `n` bytes placed at the front of
`tmp` and the returned error (`none` is Go `nil`). -/
structure ReadResult where
  data : List UInt8
  err : Option GoError
  deriving DecidableEq, Repr

/-- The count `n` returned by the read. -/
def ReadResult.n (r : ReadResult) : Nat := r.data.length

/-- A `*net.TCPConn`, described by what the socket will answer: the results of
the successive `Read` calls and the result of `Close`. -/
structure TCPConn where
  reads : List ReadResult
  closeResult : Option GoError
  deriving DecidableEq, Repr

/-- A resolved `*net.TCPAddr`. -/
structure TCPAddr where
  IP : String
  Port : Nat
  deriving DecidableEq, Repr

/-- The struct `LMSConnection`; `Connection = none` is the nil pointer. -/
structure LMSConnection where
  Connection : Option TCPConn
  deriving DecidableEq, Repr

/-- The network as `Connect` sees it: address resolution and the operating
system's connect for a resolved remote address. -/
structure Net where
  Resolve : String → String → Except GoError TCPAddr
  OSDial : TCPAddr → Except GoError TCPConn

/-- Observable effects of the `LMSConnection` methods, in program order. -/
inductive LmsEvent where
  | Debug (msg : String)
  | Trace (msg : String)
  | Println (msg : String) (err : GoError)
  | SetLinger (sec : Int)
  | SetDeadline (fromNow : String)
  | SockClose (conn : TCPConn)
  | ErrSend (err : GoError)
  | DataSend (buf : List UInt8)
  deriving DecidableEq, Repr

/-- Go `net.ResolveTCPAddr`: the address pointer is nil whenever an error is returned. -/
def Net.ResolveTCPAddr (net : Net) (network address : String) :
    Option TCPAddr × Option GoError :=
  match net.Resolve network address with
  | .ok a => (some a, none)
  | .error e => (none, some e)

/-- Go `net.DialTCP(network, laddr, raddr)` for the networks `tcp`, `tcp4`, `tcp6`:
a nil remote address is refused with `missing address` before any socket is
opened; otherwise the operating system connects. -/
def Net.DialTCP (net : Net) (network : String) (_laddr raddr : Option TCPAddr) :
    Except GoError TCPConn :=
  match raddr with
  | none => .error (.other ("dial " ++ network ++ ": missing address"))
  | some a => net.OSDial a

/-- The method `LMSConnection.Connect`. `LMSAddress` and `LMSPort` are package
constants declared outside this file. The error of `ResolveTCPAddr` is
overwritten by the one of `DialTCP` without being looked at. -/
def LMSConnection.Connect (net : Net) (LMSAddress LMSPort : String) (lms : LMSConnection) :
    List LmsEvent × LMSConnection × Option GoError :=
  let ev := [LmsEvent.Debug "connecting to lms"]
  let (tcpAddr, _) := net.ResolveTCPAddr "tcp4" (LMSAddress ++ ":" ++ LMSPort)
  match net.DialTCP "tcp" none tcpAddr with
  | .error err => (ev, lms, some err)
  | .ok conn => (ev ++ [.Debug "connected to lms"], { lms with Connection := some conn }, none)

/-- The method `LMSConnection.Close`. -/
def LMSConnection.Close (lms : LMSConnection) : List LmsEvent × Option GoError :=
  let ev := [LmsEvent.Debug "closing connection to lms"]
  match lms.Connection with
  | none => (ev, some (errors.New "no connection to close"))
  | some conn => (ev ++ [.SockClose conn], conn.closeResult)

/-- `Connection.Read(tmp)`: the first `n` bytes of `tmp` are overwritten. -/
def readInto (tmp : List UInt8) (r : ReadResult) : List UInt8 :=
  r.data ++ tmp.drop r.n

/-- The `for` loop of `Listen`. The result is the events emitted inside the loop
and the final `buf`; `none` when the described reads end before one fails. -/
def LMSConnection.Listen.loop :
    List ReadResult → (buf tmp : List UInt8) → Option (List LmsEvent × List UInt8)
  | [], _, _ => none
  | r :: rs, buf, tmp =>
    let n := r.n
    let tmp1 := readInto tmp r
    match r.err with
    | some err =>
      if err ≠ GoError.EOF && !strings.ContainsAny err.Error "i/o timeout" then
        some ([.Println "read error:" err, .ErrSend err], buf)
      else
        some ([], buf)
    | none => LMSConnection.Listen.loop rs (buf ++ tmp1.take n) tmp1

/-- The method `LMSConnection.Listen(ch, eCh)` on a connection `conn`: the
result is the ordered list of effects, where `ErrSend` is `eCh <- err` and
`DataSend` is `ch <- buf`. -/
def LMSConnection.Listen (conn : TCPConn) : Option (List LmsEvent) :=
  let ev := [LmsEvent.Debug "listening for lms messages...", .SetLinger 1, .SetDeadline "1s"]
  let buf : List UInt8 := []
  let tmp : List UInt8 := List.replicate 4096 0
  match LMSConnection.Listen.loop conn.reads buf tmp with
  | none => none
  | some (evLoop, buf) => some (ev ++ evLoop ++ [.DataSend buf, .Trace "done listening"])

/-- The payloads sent on the data channel, in order. -/
def dataSends : List LmsEvent → List (List UInt8)
  | [] => []
  | .DataSend b :: es => b :: dataSends es
  | _ :: es => dataSends es

/-- The errors sent on the error channel, in order. -/
def errSends : List LmsEvent → List GoError
  | [] => []
  | .ErrSend e :: es => e :: errSends es
  | _ :: es => errSends es

/-- An error the specification calls a timeout: its text contains `i/o timeout`. -/
def isTimeout (err : GoError) : Bool := strings.Contains err.Error "i/o timeout"

/-! ## `cmd/main.go` -/

/-- The constants of package `pkg/utils` that `main.go` refers to; they are
declared outside this file and kept as parameters. -/
structure Utils where
  Success : Int
  MissingOrIncorrectPassword : Int
  ServerCerificateVerificationFailed : Int
  LMSAddress : String
  LMSPort : String

/-- The local configuration `*flags.LocalConfig` points to. `runRPC` reads its
`Password` and hands the whole value on. -/
structure Config where
  Password : String
  deriving DecidableEq, Repr

/-- The fields of `flags.Flags` read by `handleFlags` and `runRPC`. The pointer
`LocalConfig` is taken as allocated by the flags package, hence a value. -/
structure Flags where
  Local : Bool
  UseCCM : Bool
  UseACM : Bool
  Verbose : Bool
  JsonOutput : Bool
  LogLevel : String
  LocalConfig : Config
  deriving DecidableEq, Repr

/-- The levels of the logrus logger. -/
inductive Level where
  | PanicLevel | FatalLevel | ErrorLevel | WarnLevel | InfoLevel | DebugLevel | TraceLevel
  deriving DecidableEq, Repr

/-- What `GetLocalSystemAccount` answers on success. -/
structure LocalSystemAccount where
  Username : String
  Password : String
  deriving DecidableEq, Repr

/-- The value built by `wsman.NewClient(target, username, password, useDigest)`. -/
structure WsmanClient where
  target : String
  username : String
  password : String
  useDigest : Bool
  deriving DecidableEq, Repr

/-- The start message built by `rps.PrepareInitialMessage`. -/
structure Message where
  payload : String
  deriving DecidableEq, Repr

/-- The executor built by `client.NewExecutor`. -/
structure Executor where
  server : String
  deriving DecidableEq, Repr

/-- The collaborating packages as `main.go` calls them: `ParseFlags` stands
for `flags.NewFlags(args).ParseFlags()` and yields the filled-in flags, the
keep-going indicator and the result code. -/
structure World where
  ParseFlags : List String → Flags × Bool × Int
  ParseLevel : String → Except GoError Level
  GetLocalSystemAccount : Except GoError LocalSystemAccount
  PrepareInitialMessage : Flags → Except GoError Message
  NewExecutor : Flags → Except GoError Executor

/-- Observable effects of `handleFlags` and `runRPC`, in program order. -/
inductive RpcEvent where
  | SetLevel (lvl : Level)
  | Warn (err : GoError)
  | SetFormatter (json : Bool)
  | GetLocalSystemAccount
  | LogError (err : GoError)
  | NewClient (client : WsmanClient)
  | NewLocalConfiguration (config : Config) (client : WsmanClient)
  | ActivateCCM (config : Config) (client : WsmanClient)
  | Configure8021xWiFi (config : Config) (client : WsmanClient)
  | PrepareInitialMessage (flags : Flags)
  | NewExecutor (flags : Flags)
  | MakeItSo (executor : Executor) (startMessage : Message)
  deriving DecidableEq, Repr

/-- Go `wsman.NewClient`. -/
def wsman.NewClient (target username password : String) (useDigest : Bool) : WsmanClient :=
  { target := target, username := username, password := password, useDigest := useDigest }

/-- The logger set-up at the end of `handleFlags`: level, then formatter. -/
def logSetup (w : World) (flags : Flags) : List RpcEvent :=
  let evLevel : List RpcEvent :=
    if flags.Verbose then
      [.SetLevel .TraceLevel]
    else
      match w.ParseLevel flags.LogLevel with
      | .error err => [.Warn err, .SetLevel .InfoLevel]
      | .ok lvl => [.SetLevel lvl]
  let evFormat : List RpcEvent :=
    if flags.JsonOutput then [.SetFormatter true] else [.SetFormatter false]
  evLevel ++ evFormat

/-- The function `handleFlags`; the returned flags pointer is `none` for nil. -/
def handleFlags (w : World) (utils : Utils) (args : List String) :
    List RpcEvent × Option Flags × Bool × Int :=
  let (flags, keepgoing, result) := w.ParseFlags args
  if !keepgoing then
    ([], none, false, result)
  else
    (logSetup w flags, some flags, true, utils.Success)

/-- The function `runRPC`: the effects in order, and the returned
`(status, error)`; the return is `none` only if a nil flags pointer were
dereferenced. -/
def runRPC (w : World) (utils : Utils) (args : List String) :
    List RpcEvent × Option (Int × Option GoError) :=
  let (ev0, flags, keepgoing, status) := handleFlags w utils args
  if !keepgoing then
    (ev0, some (status, none))
  else
    match flags with
    | none => (ev0, none)
    | some flags =>
      if flags.Local then
        let config := flags.LocalConfig
        let password := config.Password
        let username := "admin"
        let creds : List RpcEvent × Except GoError (String × String) :=
          if flags.UseCCM || flags.UseACM then
            match w.GetLocalSystemAccount with
            | .error err => ([.GetLocalSystemAccount, .LogError err], .error err)
            | .ok lsa => ([.GetLocalSystemAccount], .ok (lsa.Username, lsa.Password))
          else
            ([], .ok (username, password))
        match creds with
        | (ev1, .error err) => (ev0 ++ ev1, some (-1, some err))
        | (ev1, .ok (username, password)) =>
          let client := wsman.NewClient
            ("http://" ++ utils.LMSAddress ++ ":" ++ utils.LMSPort ++ "/wsman") username password true
          let ev2 : List RpcEvent := [.NewClient client, .NewLocalConfiguration config client]
          let ev3 : List RpcEvent :=
            if flags.UseCCM then [.ActivateCCM config client]
            else [.Configure8021xWiFi config client]
          (ev0 ++ ev1 ++ ev2 ++ ev3, some (utils.Success, none))
      else
        match w.PrepareInitialMessage flags with
        | .error err =>
          (ev0 ++ [.PrepareInitialMessage flags], some (utils.MissingOrIncorrectPassword, some err))
        | .ok startMessage =>
          match w.NewExecutor flags with
          | .error err =>
            (ev0 ++ [.PrepareInitialMessage flags, .NewExecutor flags],
              some (utils.ServerCerificateVerificationFailed, some err))
          | .ok executor =>
            (ev0 ++ [.PrepareInitialMessage flags, .NewExecutor flags,
              .MakeItSo executor startMessage], some (utils.Success, none))

/-- Is the event a call of `ActivateCCM`? -/
def RpcEvent.isActivateCCM : RpcEvent → Bool
  | .ActivateCCM _ _ => true
  | _ => false

/-- Is the event a call of `Configure8021xWiFi`? -/
def RpcEvent.isConfigure8021xWiFi : RpcEvent → Bool
  | .Configure8021xWiFi _ _ => true
  | _ => false

/-- Is the event a call of the executor's `MakeItSo`? -/
def RpcEvent.isMakeItSo : RpcEvent → Bool
  | .MakeItSo _ _ => true
  | _ => false

/-- Is the event the construction of the remote executor? -/
def RpcEvent.isNewExecutor : RpcEvent → Bool
  | .NewExecutor _ => true
  | _ => false

/-- Is the event the construction of the protocol client? -/
def RpcEvent.isNewClient : RpcEvent → Bool
  | .NewClient _ => true
  | _ => false

/-- Is the event one of the logger set-up steps of `handleFlags`? -/
def RpcEvent.isLogSetup : RpcEvent → Bool
  | .SetLevel _ => true
  | .Warn _ => true
  | .SetFormatter _ => true
  | _ => false

/-- The address `runRPC` gives to `wsman.NewClient`. -/
def wsmanTarget (utils : Utils) : String :=
  "http://" ++ utils.LMSAddress ++ ":" ++ utils.LMSPort ++ "/wsman"

/-- Sample values for the constants of `pkg/utils`. -/
def sampleUtils : Utils :=
  { Success := 0, MissingOrIncorrectPassword := 23, ServerCerificateVerificationFailed := 22,
    LMSAddress := "localhost", LMSPort := "16992" }

/-- A sample world: flag parsing keeps going with the given flags, and the
collaborators answer as given. -/
def sampleWorld (flags : Flags) (lsa : Except GoError LocalSystemAccount)
    (msg : Except GoError Message) (exec : Except GoError Executor) : World :=
  { ParseFlags := fun _ => (flags, true, 0),
    ParseLevel := fun _ => .ok .InfoLevel,
    GetLocalSystemAccount := lsa,
    PrepareInitialMessage := fun _ => msg,
    NewExecutor := fun _ => exec }

/-- Sample flags: local mode with `UseCCM`, operator password `operator-pw`. -/
def ccmFlags : Flags :=
  { Local := true, UseCCM := true, UseACM := false, Verbose := false, JsonOutput := false,
    LogLevel := "info", LocalConfig := { Password := "operator-pw" } }

/-- Sample flags: remote mode. -/
def remoteFlags : Flags :=
  { Local := false, UseCCM := false, UseACM := false, Verbose := false, JsonOutput := false,
    LogLevel := "info", LocalConfig := { Password := "" } }

/-- The protocol clients constructed during a run, in order. -/
def clientsBuilt : List RpcEvent → List WsmanClient
  | [] => []
  | .NewClient c :: es => c :: clientsBuilt es
  | _ :: es => clientsBuilt es

/-! ## The capability decoder (`internal/local`) -/

/-- Modelled from the spec: the components of a string between the occurrences
of a separator character, as `DecodeAMT` (source file not among the sources)
needs them for the dotted version. -/
def splitOnChar (sep : Char) : List Char → List (List Char)
  | [] => [[]]
  | c :: cs =>
    if c = sep then [] :: splitOnChar sep cs
    else
      match splitOnChar sep cs with
      | [] => [[c]]
      | part :: parts => (c :: part) :: parts

/-- Modelled from the spec: the value of a run of decimal digits (helper of
`DecodeAMT`, source file not among the sources). -/
def digitsValue (cs : List Char) : Nat :=
  cs.foldl (fun acc c => acc * 10 + (c.toNat - 48)) 0

/-- Modelled from the spec: a numeric component is a non-empty run of decimal
digits (helper of `DecodeAMT`, source file not among the sources). -/
def parseNumeric (cs : List Char) : Option Nat :=
  if cs ≠ [] ∧ cs.all Char.isDigit then some (digitsValue cs) else none

/-- Modelled from the spec: the version check of `DecodeAMT` (its source file
is not among the sources; only `TestDecodeAMT` is). The dot-separated
components must all be numeric; the answer is the major component. -/
def parseVersion (amtParts : List (List Char)) : Option Nat :=
  if amtParts.all (fun part => (parseNumeric part).isSome) then
    amtParts.head?.bind parseNumeric
  else
    none

/-- Modelled from the spec: the SKU check of `DecodeAMT` (source file not
among the sources). A SKU is a non-negative decimal integer; a numeral with a
superfluous leading zero is outside the accepted range, as the fixture `008` shows. -/
def parseSKU (SKU : String) : Option Nat :=
  match SKU.toList with
  | '0' :: _ :: _ => none
  | cs => parseNumeric cs

/-- Modelled from the spec: the enumerated SKU codes of major versions up to 2
(`DecodeAMT`, source file not among the sources). -/
def legacySKU : Nat → String
  | 0 => "AMT + ASF + iQST"
  | 1 => "ASF + iQST"
  | 2 => "iQST"
  | _ => "Unknown"

/-- Modelled from the spec: one line of the bit-to-label table of `DecodeAMT`
(source file not among the sources): the label is contributed when the bit is
set and `fromMajor ≤ major`, and `major < beforeMajor` when that bound is given. -/
structure SKUBit where
  fromMajor : Nat
  beforeMajor : Option Nat
  mask : Nat
  label : String
  deriving DecidableEq, Repr

/-- Modelled from the spec: the ordered bit-to-label table of `DecodeAMT`
(source file not among the sources), with the labels, order and spacing of the
fixture table in `TestDecodeAMT`. -/
def skuBits : List SKUBit :=
  [ ⟨3, some 8, 0x02, "iQST "⟩,
    ⟨3, some 6, 0x04, "ASF "⟩,
    ⟨3, some 5, 0x08, "AMT"⟩,
    ⟨5, none, 0x08, "AMT Pro "⟩,
    ⟨5, none, 0x10, "Intel Standard Manageability "⟩,
    ⟨5, some 6, 0x20, "TPM "⟩,
    ⟨5, some 6, 0x100, "Home IT "⟩,
    ⟨5, some 6, 0x400, "WOX "⟩,
    ⟨5, none, 0x2000, "AT-p "⟩,
    ⟨5, none, 0x4000, "Corporate "⟩,
    ⟨5, some 8, 0x8000, "L3 Mgt Upgrade"⟩ ]

/-- Modelled from the spec: does the table line contribute its label for this
major version and SKU (helper of `DecodeAMT`, source file not among the sources)? -/
def SKUBit.applies (b : SKUBit) (major skuNum : Nat) : Bool :=
  decide (skuNum &&& b.mask ≠ 0) && decide (b.fromMajor ≤ major) &&
    (match b.beforeMajor with
     | none => true
     | some hi => decide (major < hi))

/-- Modelled from the spec: the bitmask decoding of `DecodeAMT` for major
versions from 3 upward (source file not among the sources): the labels of the
set bits, concatenated in table order. -/
def bitmaskSKU (major skuNum : Nat) : String :=
  skuBits.foldl (fun result b => if b.applies major skuNum then result ++ b.label else result) ""

/-- Modelled from the spec: the function `DecodeAMT(version, SKU)` of package
`internal/local`, whose source file is not among the sources (the test
`TestDecodeAMT` is). The version is checked for its dotted shape first, then
for numeric components, then the SKU is parsed; majors up to 2 read the SKU as
an enumerated code, majors from 3 upward as a bitmask. -/
def DecodeAMT (version SKU : String) : String :=
  let amtParts := splitOnChar '.' version.toList
  if amtParts.length ≤ 1 then
    "Invalid AMT version format"
  else
    match parseVersion amtParts with
    | none => "Invalid AMT version"
    | some major =>
      match parseSKU SKU with
      | none => "Invalid SKU"
      | some skuNum =>
        if major ≤ 2 then legacySKU skuNum else bitmaskSKU major skuNum

/-- The table of `TestDecodeAMT`: version, SKU, wanted text. -/
def testCases : List (String × String × String) :=
  [ ("200", "0", "Invalid AMT version format"),
    ("ab.c", "0", "Invalid AMT version"),
    ("2.0.0", "0", "AMT + ASF + iQST"),
    ("2.1.0", "1", "ASF + iQST"),
    ("2.2.0", "2", "iQST"),
    ("1.1.0", "3", "Unknown"),
    ("3.0.0", "008", "Invalid SKU"),
    ("3.0.0", "8", "AMT"),
    ("4.1.0", "2", "iQST "),
    ("4.0.0", "4", "ASF "),
    ("5.0.0", "288", "TPM Home IT "),
    ("5.0.0", "1088", "WOX "),
    ("5.0.0", "38", "iQST ASF TPM "),
    ("5.0.0", "4", "ASF "),
    ("6.0.0", "2", "iQST "),
    ("7.0.0", "36864", "L3 Mgt Upgrade"),
    ("8.0.0", "24584", "AMT Pro AT-p Corporate "),
    ("10.0.0", "8", "AMT Pro "),
    ("11.0.0", "16392", "AMT Pro Corporate "),
    ("15.0.42", "16392", "AMT Pro Corporate "),
    ("16.1.25", "16400", "Intel Standard Manageability Corporate ") ]

/-! ## Theorems -/

/-- The decoder model reproduces every row of the fixture table of `TestDecodeAMT`. -/
theorem DecodeAMT_testCases :
    testCases.all (fun tc => DecodeAMT tc.1 tc.2.1 == tc.2.2) = true := by
  decide

/-! ### `LMSConnection.Listen` -/

/-- The slice `tmp[:n]` after a read is the chunk that read delivered. -/
theorem take_readInto (tmp : List UInt8) (r : ReadResult) :
    (readInto tmp r).take r.n = r.data := by
  simp [readInto, ReadResult.n]

/-- Successful reads are appended to `buf` in order and the loop goes on. -/
theorem Listen_loop_append (oks : List ReadResult) (hoks : ∀ r ∈ oks, r.err = none) :
    ∀ (rest : List ReadResult) (buf tmp : List UInt8), ∃ tmp1,
      LMSConnection.Listen.loop (oks ++ rest) buf tmp
        = LMSConnection.Listen.loop rest (buf ++ (oks.map ReadResult.data).flatten) tmp1 := by
  induction oks with
  | nil => intro rest buf tmp; exact ⟨tmp, by simp⟩
  | cons r rs ih =>
    intro rest buf tmp
    have hr : r.err = none := hoks r (List.mem_cons_self _ _)
    have hrs : ∀ x ∈ rs, x.err = none := fun x hx => hoks x (List.mem_cons_of_mem _ hx)
    obtain ⟨tmp1, h1⟩ := ih hrs rest (buf ++ r.data) (readInto tmp r)
    refine ⟨tmp1, ?_⟩
    rw [List.cons_append, LMSConnection.Listen.loop]
    simp only [hr, take_readInto, List.map_cons, List.flatten_cons]
    rw [h1, List.append_assoc]

/-- A failing read ends the loop with `buf` as it stands and no data send inside the loop. -/
theorem Listen_loop_fail (bad : ReadResult) (hbad : bad.err ≠ none) (rest : List ReadResult)
    (buf tmp : List UInt8) :
    ∃ evs, LMSConnection.Listen.loop (bad :: rest) buf tmp = some (evs, buf) ∧ dataSends evs = [] := by
  cases hb : bad.err with
  | none => exact absurd hb hbad
  | some err =>
    simp only [LMSConnection.Listen.loop, hb]
    split
    · exact ⟨_, rfl, rfl⟩
    · exact ⟨_, rfl, rfl⟩

/-- The data sends of two event lists put one after the other. -/
theorem dataSends_append (xs ys : List LmsEvent) :
    dataSends (xs ++ ys) = dataSends xs ++ dataSends ys := by
  induction xs with
  | nil => rfl
  | cons x xs ih => cases x <;> simp [dataSends, ih]

/-- C1: when the socket answers the successful reads `oks`, then a first failing
read `bad` (end of stream, timeout or any other error), then anything, `Listen`
returns and sends exactly one frame on the data channel, the in-order
concatenation of the chunks of `oks`; the frame is empty when `oks` is empty,
and nothing of `bad` or of the later reads is in it. -/
theorem Listen_frame_is_concatenation (conn : TCPConn) (oks : List ReadResult)
    (bad : ReadResult) (rest : List ReadResult)
    (hoks : ∀ r ∈ oks, r.err = none) (hbad : bad.err ≠ none)
    (hreads : conn.reads = oks ++ bad :: rest) :
    ∃ evs, LMSConnection.Listen conn = some evs ∧
      dataSends evs = [(oks.map ReadResult.data).flatten] ∧
      (oks = [] → dataSends evs = [[]]) := by
  obtain ⟨tmp1, h1⟩ := Listen_loop_append oks hoks (bad :: rest) [] (List.replicate 4096 0)
  obtain ⟨evLoop, h2, h3⟩ :=
    Listen_loop_fail bad hbad rest ([] ++ (oks.map ReadResult.data).flatten) tmp1
  have hd : dataSends
      ([LmsEvent.Debug "listening for lms messages...", .SetLinger 1, .SetDeadline "1s"] ++ evLoop
        ++ [.DataSend ([] ++ (oks.map ReadResult.data).flatten), .Trace "done listening"])
      = [(oks.map ReadResult.data).flatten] := by
    rw [dataSends_append, dataSends_append, h3]
    simp [dataSends]
  refine ⟨_, ?_, hd, ?_⟩
  · simp only [LMSConnection.Listen, hreads, h1, h2]
  · intro h0
    rw [hd, h0]
    rfl

/-- C1 at a concrete socket: two chunks, end of stream, and a later read that is never made. -/
theorem Listen_frame_is_concatenation_witness :
    ∃ evs, LMSConnection.Listen
        ⟨[⟨[1, 2], none⟩, ⟨[3], none⟩, ⟨[7], some .EOF⟩, ⟨[9], none⟩], none⟩ = some evs ∧
      dataSends evs = [[1, 2, 3]] := by
  obtain ⟨evs, h1, h2, _⟩ := Listen_frame_is_concatenation
    ⟨[⟨[1, 2], none⟩, ⟨[3], none⟩, ⟨[7], some .EOF⟩, ⟨[9], none⟩], none⟩
    [⟨[1, 2], none⟩, ⟨[3], none⟩] ⟨[7], some .EOF⟩ [⟨[9], none⟩]
    (by decide) (by decide) rfl
  exact ⟨evs, h1, h2⟩

/-- What `Listen` does with the error of the failing read: the error goes to the
error channel, ahead of the frame, exactly when it is not `io.EOF` and its text
has none of the characters of `i/o timeout`; otherwise nothing is sent there. -/
theorem Listen_error_channel (conn : TCPConn) (oks : List ReadResult)
    (bad : ReadResult) (err : GoError) (rest : List ReadResult)
    (hoks : ∀ r ∈ oks, r.err = none) (hbad : bad.err = some err)
    (hreads : conn.reads = oks ++ bad :: rest) :
    LMSConnection.Listen conn = some
      ([LmsEvent.Debug "listening for lms messages...", .SetLinger 1, .SetDeadline "1s"] ++
        (if err ≠ GoError.EOF ∧ strings.ContainsAny err.Error "i/o timeout" = false then
          [.Println "read error:" err, .ErrSend err] else []) ++
        [.DataSend (oks.map ReadResult.data).flatten, .Trace "done listening"]) := by
  obtain ⟨tmp1, h1⟩ := Listen_loop_append oks hoks (bad :: rest) [] (List.replicate 4096 0)
  simp only [LMSConnection.Listen, hreads, h1, LMSConnection.Listen.loop, hbad]
  by_cases h : err ≠ GoError.EOF ∧ strings.ContainsAny err.Error "i/o timeout" = false
  · have hc : (decide (err ≠ GoError.EOF) && !strings.ContainsAny err.Error "i/o timeout") = true := by
      simpa using h
    rw [if_pos hc, if_pos h]
    simp
  · have hc : ¬ ((decide (err ≠ GoError.EOF) && !strings.ContainsAny err.Error "i/o timeout") = true) := by
      simpa using h
    rw [if_neg hc, if_neg h]
    simp

/-- C2 (code defect): a connection reset is neither `io.EOF` nor a timeout (its
text does not contain `i/o timeout`), yet `Listen` sends nothing on the error
channel: the events are only the setup, the empty frame and the closing trace. -/
theorem Listen_connection_reset_not_surfaced :
    GoError.other "read tcp 127.0.0.1:49152->127.0.0.1:16992: read: connection reset by peer"
        ≠ GoError.EOF ∧
      isTimeout (.other
        "read tcp 127.0.0.1:49152->127.0.0.1:16992: read: connection reset by peer") = false ∧
      LMSConnection.Listen ⟨[⟨[], some (.other
        "read tcp 127.0.0.1:49152->127.0.0.1:16992: read: connection reset by peer")⟩], none⟩
        = some [.Debug "listening for lms messages...", .SetLinger 1, .SetDeadline "1s",
            .DataSend [], .Trace "done listening"] := by
  decide

/-- A timeout and the end of the stream end the loop quietly: the timeout error
is recognised as one, and in both cases only the frame is sent. -/
theorem Listen_timeout_and_EOF_quiet :
    isTimeout (.other "read tcp 127.0.0.1:49152->127.0.0.1:16992: i/o timeout") = true ∧
      errSends ((LMSConnection.Listen ⟨[⟨[5], none⟩, ⟨[], some (.other
        "read tcp 127.0.0.1:49152->127.0.0.1:16992: i/o timeout")⟩], none⟩).getD []) = [] ∧
      dataSends ((LMSConnection.Listen ⟨[⟨[5], none⟩, ⟨[], some (.other
        "read tcp 127.0.0.1:49152->127.0.0.1:16992: i/o timeout")⟩], none⟩).getD []) = [[5]] ∧
      LMSConnection.Listen ⟨[⟨[5], none⟩, ⟨[], some .EOF⟩], none⟩
        = some [.Debug "listening for lms messages...", .SetLinger 1, .SetDeadline "1s",
            .DataSend [5], .Trace "done listening"] := by
  decide

/-! ### `LMSConnection.Close` and `LMSConnection.Connect` -/

/-- C6: `Close` on an `LMSConnection` whose `Connection` is nil returns the
non-nil error `no connection to close` and does not touch a socket; on an
`LMSConnection` with a connection set it closes that socket and returns exactly
the socket's close result. -/
theorem Close_nil_or_socket_result :
    LMSConnection.Close ⟨none⟩
        = ([.Debug "closing connection to lms"], some (errors.New "no connection to close")) ∧
      (LMSConnection.Close ⟨none⟩).2 ≠ none ∧
      ∀ conn : TCPConn, LMSConnection.Close ⟨some conn⟩
        = ([.Debug "closing connection to lms", .SockClose conn], conn.closeResult) := by
  refine ⟨rfl, by simp [LMSConnection.Close], fun conn => rfl⟩

/-- C7: `Connect` returns a non-nil error and leaves the `LMSConnection` as it
was whenever resolving the address fails or the dial of the resolved address
fails; it returns nil exactly when both succeed, and then `Connection` holds
the new connection. -/
theorem Connect_error_or_stored (net : Net) (LMSAddress LMSPort : String) (lms : LMSConnection) :
    ((∃ e, net.Resolve "tcp4" (LMSAddress ++ ":" ++ LMSPort) = .error e) →
        (LMSConnection.Connect net LMSAddress LMSPort lms).2.2 ≠ none ∧
        (LMSConnection.Connect net LMSAddress LMSPort lms).2.1 = lms) ∧
      (∀ a, net.Resolve "tcp4" (LMSAddress ++ ":" ++ LMSPort) = .ok a →
        (∃ e, net.OSDial a = .error e) →
        (LMSConnection.Connect net LMSAddress LMSPort lms).2.2 ≠ none ∧
        (LMSConnection.Connect net LMSAddress LMSPort lms).2.1 = lms) ∧
      ((LMSConnection.Connect net LMSAddress LMSPort lms).2.2 = none ↔
        ∃ a conn, net.Resolve "tcp4" (LMSAddress ++ ":" ++ LMSPort) = .ok a ∧
          net.OSDial a = .ok conn ∧
          (LMSConnection.Connect net LMSAddress LMSPort lms).2.1 = ⟨some conn⟩) := by
  cases hres : net.Resolve "tcp4" (LMSAddress ++ ":" ++ LMSPort) with
  | error e =>
    simp [LMSConnection.Connect, Net.ResolveTCPAddr, Net.DialTCP, hres]
  | ok a =>
    cases hdial : net.OSDial a with
    | error e => simp [LMSConnection.Connect, Net.ResolveTCPAddr, Net.DialTCP, hres, hdial]
    | ok conn => simp [LMSConnection.Connect, Net.ResolveTCPAddr, Net.DialTCP, hres, hdial]

/-- C7 at a network where the address does not resolve. -/
theorem Connect_error_or_stored_witness :
    (LMSConnection.Connect
        ⟨fun _ _ => .error (.other "lookup localhost: no such host"), fun _ => .ok ⟨[], none⟩⟩
        "localhost" "16992" ⟨none⟩).2.2 ≠ none ∧
      (LMSConnection.Connect
        ⟨fun _ _ => .error (.other "lookup localhost: no such host"), fun _ => .ok ⟨[], none⟩⟩
        "localhost" "16992" ⟨none⟩).2.1 = ⟨none⟩ :=
  (Connect_error_or_stored
    ⟨fun _ _ => .error (.other "lookup localhost: no such host"), fun _ => .ok ⟨[], none⟩⟩
    "localhost" "16992" ⟨none⟩).1 ⟨_, rfl⟩

/-! ### `runRPC`: the paths through the function -/

/-- The logger set-up consists of logger events only. -/
theorem logSetup_isLogSetup (w : World) (flags : Flags) :
    ∀ e ∈ logSetup w flags, e.isLogSetup = true := by
  intro e he
  unfold logSetup at he
  cases hv : flags.Verbose <;> cases hj : flags.JsonOutput <;>
    cases hl : w.ParseLevel flags.LogLevel <;>
    simp [hv, hj, hl] at he <;>
    rcases he with rfl | rfl | rfl <;> rfl

/-- The logger set-up calls none of the three operations and builds no client. -/
theorem logSetup_counts (w : World) (flags : Flags) :
    (logSetup w flags).countP RpcEvent.isActivateCCM = 0 ∧
      (logSetup w flags).countP RpcEvent.isConfigure8021xWiFi = 0 ∧
      (logSetup w flags).countP RpcEvent.isMakeItSo = 0 ∧
      (logSetup w flags).countP RpcEvent.isNewExecutor = 0 ∧
      (logSetup w flags).countP RpcEvent.isNewClient = 0 ∧
      RpcEvent.GetLocalSystemAccount ∉ logSetup w flags := by
  have h := logSetup_isLogSetup w flags
  refine ⟨?_, ?_, ?_, ?_, ?_, ?_⟩
  · rw [List.countP_eq_zero]; intro e he; have := h e he; cases e <;> simp_all [RpcEvent.isLogSetup, RpcEvent.isActivateCCM]
  · rw [List.countP_eq_zero]; intro e he; have := h e he; cases e <;> simp_all [RpcEvent.isLogSetup, RpcEvent.isConfigure8021xWiFi]
  · rw [List.countP_eq_zero]; intro e he; have := h e he; cases e <;> simp_all [RpcEvent.isLogSetup, RpcEvent.isMakeItSo]
  · rw [List.countP_eq_zero]; intro e he; have := h e he; cases e <;> simp_all [RpcEvent.isLogSetup, RpcEvent.isNewExecutor]
  · rw [List.countP_eq_zero]; intro e he; have := h e he; cases e <;> simp_all [RpcEvent.isLogSetup, RpcEvent.isNewClient]
  · intro he; have := h _ he; simp [RpcEvent.isLogSetup] at this

/-- The clients built in two event lists put one after the other. -/
theorem clientsBuilt_append (xs ys : List RpcEvent) :
    clientsBuilt (xs ++ ys) = clientsBuilt xs ++ clientsBuilt ys := by
  induction xs with
  | nil => rfl
  | cons x xs ih => cases x <;> simp [clientsBuilt, ih]

/-- The logger set-up builds no client. -/
theorem clientsBuilt_logSetup (w : World) (flags : Flags) : clientsBuilt (logSetup w flags) = [] := by
  have h := logSetup_isLogSetup w flags
  generalize logSetup w flags = evs at h
  induction evs with
  | nil => rfl
  | cons x xs ih =>
    have hx := h x (List.mem_cons_self _ _)
    have hxs : ∀ e ∈ xs, e.isLogSetup = true := fun e he => h e (List.mem_cons_of_mem _ he)
    cases x <;> simp_all [clientsBuilt, RpcEvent.isLogSetup]

/-- Flag handling says stop: nothing is done and its status is returned with a nil error. -/
theorem runRPC_stop (w : World) (utils : Utils) (args : List String) (flags : Flags)
    (result : Int) (hparse : w.ParseFlags args = (flags, false, result)) :
    runRPC w utils args = ([], some (result, none)) := by
  simp [runRPC, handleFlags, hparse]

/-- Local mode, neither `UseCCM` nor `UseACM`. -/
theorem runRPC_local_plain (w : World) (utils : Utils) (args : List String) (flags : Flags)
    (result : Int) (hparse : w.ParseFlags args = (flags, true, result))
    (hlocal : flags.Local = true) (hccm : flags.UseCCM = false) (hacm : flags.UseACM = false) :
    runRPC w utils args =
      (logSetup w flags ++
        [.NewClient (wsman.NewClient (wsmanTarget utils) "admin" flags.LocalConfig.Password true),
         .NewLocalConfiguration flags.LocalConfig
           (wsman.NewClient (wsmanTarget utils) "admin" flags.LocalConfig.Password true),
         .Configure8021xWiFi flags.LocalConfig
           (wsman.NewClient (wsmanTarget utils) "admin" flags.LocalConfig.Password true)],
        some (utils.Success, none)) := by
  simp [runRPC, handleFlags, hparse, hlocal, hccm, hacm, wsmanTarget]

/-- Local mode with `UseCCM` or `UseACM`, the local system account is obtained. -/
theorem runRPC_local_account (w : World) (utils : Utils) (args : List String) (flags : Flags)
    (result : Int) (lsa : LocalSystemAccount) (hparse : w.ParseFlags args = (flags, true, result))
    (hlocal : flags.Local = true) (hmode : flags.UseCCM = true ∨ flags.UseACM = true)
    (hlsa : w.GetLocalSystemAccount = .ok lsa) :
    runRPC w utils args =
      (logSetup w flags ++
        [.GetLocalSystemAccount,
         .NewClient (wsman.NewClient (wsmanTarget utils) lsa.Username lsa.Password true),
         .NewLocalConfiguration flags.LocalConfig
           (wsman.NewClient (wsmanTarget utils) lsa.Username lsa.Password true),
         if flags.UseCCM = true then
           .ActivateCCM flags.LocalConfig
             (wsman.NewClient (wsmanTarget utils) lsa.Username lsa.Password true)
         else
           .Configure8021xWiFi flags.LocalConfig
             (wsman.NewClient (wsmanTarget utils) lsa.Username lsa.Password true)],
        some (utils.Success, none)) := by
  have hor : (flags.UseCCM || flags.UseACM) = true := by
    rcases hmode with h | h <;> simp [h]
  cases hc : flags.UseCCM
  · have ha : flags.UseACM = true := by simpa [hc] using hmode
    simp [runRPC, handleFlags, hparse, hlocal, hlsa, wsmanTarget, hc, ha]
  · simp [runRPC, handleFlags, hparse, hlocal, hlsa, wsmanTarget, hc]

/-- Local mode with `UseCCM` or `UseACM`, the query for the local system account fails. -/
theorem runRPC_local_account_error (w : World) (utils : Utils) (args : List String)
    (flags : Flags) (result : Int) (err : GoError)
    (hparse : w.ParseFlags args = (flags, true, result))
    (hlocal : flags.Local = true) (hmode : flags.UseCCM = true ∨ flags.UseACM = true)
    (hlsa : w.GetLocalSystemAccount = .error err) :
    runRPC w utils args =
      (logSetup w flags ++ [.GetLocalSystemAccount, .LogError err], some (-1, some err)) := by
  have hor : (flags.UseCCM || flags.UseACM) = true := by
    rcases hmode with h | h <;> simp [h]
  simp [runRPC, handleFlags, hparse, hlocal, hor, hlsa]

/-- Remote mode, the initial message cannot be built. -/
theorem runRPC_remote_message_error (w : World) (utils : Utils) (args : List String)
    (flags : Flags) (result : Int) (err : GoError)
    (hparse : w.ParseFlags args = (flags, true, result)) (hremote : flags.Local = false)
    (hmsg : w.PrepareInitialMessage flags = .error err) :
    runRPC w utils args =
      (logSetup w flags ++ [.PrepareInitialMessage flags],
        some (utils.MissingOrIncorrectPassword, some err)) := by
  simp [runRPC, handleFlags, hparse, hremote, hmsg]

/-- Remote mode, message and executor are built. -/
theorem runRPC_remote_run (w : World) (utils : Utils) (args : List String)
    (flags : Flags) (result : Int) (startMessage : Message) (executor : Executor)
    (hparse : w.ParseFlags args = (flags, true, result)) (hremote : flags.Local = false)
    (hmsg : w.PrepareInitialMessage flags = .ok startMessage)
    (hexec : w.NewExecutor flags = .ok executor) :
    runRPC w utils args =
      (logSetup w flags ++ [.PrepareInitialMessage flags, .NewExecutor flags,
        .MakeItSo executor startMessage], some (utils.Success, none)) := by
  simp [runRPC, handleFlags, hparse, hremote, hmsg, hexec]

/-! ### `runRPC`: credentials -/

/-- C3 does not hold as stated: in a local-mode run with `UseCCM` set and the
operator password `operator-pw`, `runRPC` (which reads no option about the
local system account) calls `GetLocalSystemAccount` and builds the client with
the account it returns, not with `admin` and the operator password. -/
theorem runRPC_ccm_uses_local_system_account :
    ccmFlags.Local = true ∧ ccmFlags.UseCCM = true ∧
      RpcEvent.GetLocalSystemAccount ∈
        (runRPC (sampleWorld ccmFlags (.ok ⟨"$$OsAdmin", "lsa-pw"⟩) (.ok ⟨"hello"⟩) (.ok ⟨"rps"⟩))
          sampleUtils ["rpc", "activate"]).1 ∧
      clientsBuilt
        (runRPC (sampleWorld ccmFlags (.ok ⟨"$$OsAdmin", "lsa-pw"⟩) (.ok ⟨"hello"⟩) (.ok ⟨"rps"⟩))
          sampleUtils ["rpc", "activate"]).1
        = [⟨"http://localhost:16992/wsman", "$$OsAdmin", "lsa-pw", true⟩] ∧
      clientsBuilt
        (runRPC (sampleWorld ccmFlags (.ok ⟨"$$OsAdmin", "lsa-pw"⟩) (.ok ⟨"hello"⟩) (.ok ⟨"rps"⟩))
          sampleUtils ["rpc", "activate"]).1
        ≠ [wsman.NewClient (wsmanTarget sampleUtils) "admin" ccmFlags.LocalConfig.Password true] := by
  decide

/-- C3 as amended: in a local-mode run with neither `UseCCM` nor `UseACM` set,
the one client built has the fixed username `admin` and the operator password
of the local configuration, and `GetLocalSystemAccount` is not called; with
`UseCCM` or `UseACM` set, `GetLocalSystemAccount` is called and, when it
succeeds, the one client built has the username and password it returned. -/
theorem runRPC_local_credentials (w : World) (utils : Utils) (args : List String)
    (flags : Flags) (result : Int) (hparse : w.ParseFlags args = (flags, true, result))
    (hlocal : flags.Local = true) :
    (flags.UseCCM = false → flags.UseACM = false →
        clientsBuilt (runRPC w utils args).1
          = [wsman.NewClient (wsmanTarget utils) "admin" flags.LocalConfig.Password true] ∧
        RpcEvent.GetLocalSystemAccount ∉ (runRPC w utils args).1) ∧
      ((flags.UseCCM = true ∨ flags.UseACM = true) →
        RpcEvent.GetLocalSystemAccount ∈ (runRPC w utils args).1 ∧
        ∀ lsa, w.GetLocalSystemAccount = .ok lsa →
          clientsBuilt (runRPC w utils args).1
            = [wsman.NewClient (wsmanTarget utils) lsa.Username lsa.Password true]) := by
  constructor
  · intro hccm hacm
    rw [runRPC_local_plain w utils args flags result hparse hlocal hccm hacm]
    refine ⟨?_, ?_⟩
    · simp [clientsBuilt_append, clientsBuilt_logSetup, clientsBuilt]
    · simp [(logSetup_counts w flags).2.2.2.2.2]
  · intro hmode
    cases hlsa : w.GetLocalSystemAccount with
    | error err =>
      rw [runRPC_local_account_error w utils args flags result err hparse hlocal hmode hlsa]
      simp
    | ok lsa =>
      rw [runRPC_local_account w utils args flags result lsa hparse hlocal hmode hlsa]
      refine ⟨by simp, ?_⟩
      intro lsa2 h2
      cases h2
      cases hc : flags.UseCCM <;>
        simp [clientsBuilt_append, clientsBuilt_logSetup, clientsBuilt]

/-- C3 as amended, at a local-mode run with `UseCCM` set. -/
theorem runRPC_local_credentials_witness :
    RpcEvent.GetLocalSystemAccount ∈
      (runRPC (sampleWorld ccmFlags (.ok ⟨"$$OsAdmin", "lsa-pw"⟩) (.ok ⟨"hello"⟩) (.ok ⟨"rps"⟩))
        sampleUtils ["rpc", "activate"]).1 :=
  ((runRPC_local_credentials
    (sampleWorld ccmFlags (.ok ⟨"$$OsAdmin", "lsa-pw"⟩) (.ok ⟨"hello"⟩) (.ok ⟨"rps"⟩))
    sampleUtils ["rpc", "activate"] ccmFlags 0 rfl rfl).2 (Or.inl rfl)).1

/-- C4: in a local-mode run with `UseCCM` or `UseACM` set in which
`GetLocalSystemAccount` returns an error, `runRPC` returns that same error with
the status -1 (which is not the success status, whenever that constant is not
-1), builds no protocol client at all and calls neither `ActivateCCM` nor
`Configure8021xWiFi`. -/
theorem runRPC_account_error_is_fatal (w : World) (utils : Utils) (args : List String)
    (flags : Flags) (result : Int) (err : GoError)
    (hparse : w.ParseFlags args = (flags, true, result))
    (hlocal : flags.Local = true) (hmode : flags.UseCCM = true ∨ flags.UseACM = true)
    (hlsa : w.GetLocalSystemAccount = .error err) :
    (runRPC w utils args).2 = some (-1, some err) ∧
      (utils.Success ≠ -1 → ∀ status e, (runRPC w utils args).2 = some (status, e) →
        status ≠ utils.Success) ∧
      clientsBuilt (runRPC w utils args).1 = [] ∧
      (runRPC w utils args).1.countP RpcEvent.isNewClient = 0 ∧
      (runRPC w utils args).1.countP RpcEvent.isActivateCCM = 0 ∧
      (runRPC w utils args).1.countP RpcEvent.isConfigure8021xWiFi = 0 := by
  rw [runRPC_local_account_error w utils args flags result err hparse hlocal hmode hlsa]
  obtain ⟨h1, h2, _, _, h5, _⟩ := logSetup_counts w flags
  refine ⟨rfl, ?_, ?_, ?_, ?_, ?_⟩
  · intro hs status e h
    simp only [Option.some.injEq, Prod.mk.injEq] at h
    rw [← h.1]
    exact fun hc => hs hc.symm
  · simp [clientsBuilt_append, clientsBuilt_logSetup, clientsBuilt]
  · simp [List.countP_append, h5, RpcEvent.isNewClient]
  · simp [List.countP_append, h1, RpcEvent.isActivateCCM]
  · simp [List.countP_append, h2, RpcEvent.isConfigure8021xWiFi]

/-- C4 at a local-mode run with `UseCCM` set and a failing account query. -/
theorem runRPC_account_error_is_fatal_witness :
    (runRPC (sampleWorld ccmFlags (.error (.other "unable to get local system account"))
        (.ok ⟨"hello"⟩) (.ok ⟨"rps"⟩)) sampleUtils ["rpc", "activate"]).2
      = some (-1, some (.other "unable to get local system account")) :=
  (runRPC_account_error_is_fatal
    (sampleWorld ccmFlags (.error (.other "unable to get local system account"))
      (.ok ⟨"hello"⟩) (.ok ⟨"rps"⟩))
    sampleUtils ["rpc", "activate"] ccmFlags 0 (.other "unable to get local system account")
    rfl rfl (Or.inl rfl) rfl).1

/-! ### `runRPC`: remote mode and dispatch -/

/-- C5: in a remote-mode run (`Local` false) in which `PrepareInitialMessage`
returns an error, `runRPC` returns the status `MissingOrIncorrectPassword` with
that error, and the only thing done after flag handling is the attempt to build
the message: no executor is created and `MakeItSo` is not called. -/
theorem runRPC_message_error_before_executor (w : World) (utils : Utils) (args : List String)
    (flags : Flags) (result : Int) (err : GoError)
    (hparse : w.ParseFlags args = (flags, true, result)) (hremote : flags.Local = false)
    (hmsg : w.PrepareInitialMessage flags = .error err) :
    (runRPC w utils args).2 = some (utils.MissingOrIncorrectPassword, some err) ∧
      (runRPC w utils args).1 = (handleFlags w utils args).1 ++ [.PrepareInitialMessage flags] ∧
      (runRPC w utils args).1.countP RpcEvent.isNewExecutor = 0 ∧
      (runRPC w utils args).1.countP RpcEvent.isMakeItSo = 0 := by
  rw [runRPC_remote_message_error w utils args flags result err hparse hremote hmsg]
  obtain ⟨_, _, h3, h4, _, _⟩ := logSetup_counts w flags
  refine ⟨rfl, ?_, ?_, ?_⟩
  · simp [handleFlags, hparse]
  · simp [List.countP_append, h4, RpcEvent.isNewExecutor]
  · simp [List.countP_append, h3, RpcEvent.isMakeItSo]

/-- C5 at a remote-mode run whose initial message cannot be built. -/
theorem runRPC_message_error_before_executor_witness :
    (runRPC (sampleWorld remoteFlags (.ok ⟨"$$OsAdmin", "lsa-pw"⟩)
        (.error (.other "password is required")) (.ok ⟨"rps"⟩)) sampleUtils ["rpc", "activate"]).2
      = some (sampleUtils.MissingOrIncorrectPassword, some (.other "password is required")) :=
  (runRPC_message_error_before_executor
    (sampleWorld remoteFlags (.ok ⟨"$$OsAdmin", "lsa-pw"⟩)
      (.error (.other "password is required")) (.ok ⟨"rps"⟩))
    sampleUtils ["rpc", "activate"] remoteFlags 0 (.other "password is required")
    rfl rfl rfl).1

/-- C10: when flag handling keeps going and no credential, initial-message or
executor-construction error occurs, the three operations `ActivateCCM`,
`Configure8021xWiFi` and `MakeItSo` are called exactly once in total:
`ActivateCCM` once iff `Local` and `UseCCM`, `Configure8021xWiFi` once iff
`Local` and not `UseCCM`, `MakeItSo` once iff not `Local`. When flag handling
says stop, nothing is done at all and its status is returned with a nil error. -/
theorem runRPC_dispatches_exactly_one (w : World) (utils : Utils) (args : List String) :
    (∀ flags result, w.ParseFlags args = (flags, true, result) →
        (flags.Local = true → (flags.UseCCM = true ∨ flags.UseACM = true) →
          ∃ lsa, w.GetLocalSystemAccount = .ok lsa) →
        (flags.Local = false →
          (∃ startMessage, w.PrepareInitialMessage flags = .ok startMessage) ∧
          ∃ executor, w.NewExecutor flags = .ok executor) →
        (runRPC w utils args).1.countP RpcEvent.isActivateCCM
            + (runRPC w utils args).1.countP RpcEvent.isConfigure8021xWiFi
            + (runRPC w utils args).1.countP RpcEvent.isMakeItSo = 1 ∧
          ((runRPC w utils args).1.countP RpcEvent.isActivateCCM = 1 ↔
            flags.Local = true ∧ flags.UseCCM = true) ∧
          ((runRPC w utils args).1.countP RpcEvent.isConfigure8021xWiFi = 1 ↔
            flags.Local = true ∧ flags.UseCCM = false) ∧
          ((runRPC w utils args).1.countP RpcEvent.isMakeItSo = 1 ↔ flags.Local = false)) ∧
      (∀ flags result, w.ParseFlags args = (flags, false, result) →
        runRPC w utils args = ([], some (result, none))) := by
  refine ⟨?_, fun flags result h => runRPC_stop w utils args flags result h⟩
  intro flags result hparse hcred hremote
  obtain ⟨h1, h2, h3, _, _, _⟩ := logSetup_counts w flags
  cases hl : flags.Local with
  | false =>
    obtain ⟨⟨startMessage, hm⟩, executor, hx⟩ := hremote hl
    rw [runRPC_remote_run w utils args flags result startMessage executor hparse hl hm hx]
    simp [List.countP_append, h1, h2, h3, RpcEvent.isActivateCCM,
      RpcEvent.isConfigure8021xWiFi, RpcEvent.isMakeItSo, List.countP_cons]
  | true =>
    cases hc : flags.UseCCM with
    | true =>
      obtain ⟨lsa, ha⟩ := hcred hl (Or.inl hc)
      rw [runRPC_local_account w utils args flags result lsa hparse hl (Or.inl hc) ha]
      simp [List.countP_append, h1, h2, h3, RpcEvent.isActivateCCM,
        RpcEvent.isConfigure8021xWiFi, RpcEvent.isMakeItSo, List.countP_cons, hc]
    | false =>
      cases hu : flags.UseACM with
      | true =>
        obtain ⟨lsa, ha⟩ := hcred hl (Or.inr hu)
        rw [runRPC_local_account w utils args flags result lsa hparse hl (Or.inr hu) ha]
        simp [List.countP_append, h1, h2, h3, RpcEvent.isActivateCCM,
          RpcEvent.isConfigure8021xWiFi, RpcEvent.isMakeItSo, List.countP_cons, hc]
      | false =>
        rw [runRPC_local_plain w utils args flags result hparse hl hc hu]
        simp [List.countP_append, h1, h2, h3, RpcEvent.isActivateCCM,
          RpcEvent.isConfigure8021xWiFi, RpcEvent.isMakeItSo, List.countP_cons]

/-- C10 at a remote-mode run: `MakeItSo` is the one operation called. -/
theorem runRPC_dispatches_exactly_one_witness :
    (runRPC (sampleWorld remoteFlags (.ok ⟨"$$OsAdmin", "lsa-pw"⟩) (.ok ⟨"hello"⟩) (.ok ⟨"rps"⟩))
        sampleUtils ["rpc", "activate"]).1.countP RpcEvent.isMakeItSo = 1 :=
  ((runRPC_dispatches_exactly_one
    (sampleWorld remoteFlags (.ok ⟨"$$OsAdmin", "lsa-pw"⟩) (.ok ⟨"hello"⟩) (.ok ⟨"rps"⟩))
    sampleUtils ["rpc", "activate"]).1 remoteFlags 0 rfl
    (fun h => absurd h (by decide))
    (fun _ => ⟨⟨_, rfl⟩, _, rfl⟩)).2.2.2.2 rfl

/-! ### `DecodeAMT` -/

/-- A string without the separator is a single component. -/
theorem splitOnChar_no_sep (sep : Char) (cs : List Char) (h : sep ∉ cs) :
    splitOnChar sep cs = [cs] := by
  induction cs with
  | nil => rfl
  | cons c cs ih =>
    have hc : c ≠ sep := fun e => h (by simp [e])
    have hcs : sep ∉ cs := fun m => h (List.mem_cons_of_mem _ m)
    simp [splitOnChar, hc, ih hcs]

/-- C8: for a dotted version whose components are all numeric, with major
component `major`, and a SKU that parses as the integer `skuNum`: when
`major ≤ 2` the answer is `AMT + ASF + iQST` for SKU 0, `ASF + iQST` for SKU 1,
`iQST` for SKU 2 and `Unknown` for every other SKU; when `3 ≤ major` the answer
is the bitmask decoding, and version 3.0.0 with SKU 8 gives `AMT`. -/
theorem DecodeAMT_legacy_is_enumerated (version SKU : String) (major skuNum : Nat)
    (hshape : 1 < (splitOnChar '.' version.toList).length)
    (hversion : parseVersion (splitOnChar '.' version.toList) = some major)
    (hsku : parseSKU SKU = some skuNum) :
    (major ≤ 2 →
        (skuNum = 0 → DecodeAMT version SKU = "AMT + ASF + iQST") ∧
        (skuNum = 1 → DecodeAMT version SKU = "ASF + iQST") ∧
        (skuNum = 2 → DecodeAMT version SKU = "iQST") ∧
        (3 ≤ skuNum → DecodeAMT version SKU = "Unknown")) ∧
      (3 ≤ major → DecodeAMT version SKU = bitmaskSKU major skuNum) ∧
      DecodeAMT "3.0.0" "8" = "AMT" ∧ DecodeAMT "2.0.0" "8" = "Unknown" := by
  have hlen : ¬ (splitOnChar '.' version.toList).length ≤ 1 := by omega
  refine ⟨?_, ?_, by decide, by decide⟩
  · intro hm
    have hd : DecodeAMT version SKU = legacySKU skuNum := by
      simp only [DecodeAMT, hversion, hsku, if_neg hlen, if_pos hm]
    rw [hd]
    refine ⟨?_, ?_, ?_, ?_⟩
    · intro h; subst h; rfl
    · intro h; subst h; rfl
    · intro h; subst h; rfl
    · intro h
      match skuNum, h with
      | n + 3, _ => rfl
  · intro hm
    have hm2 : ¬ major ≤ 2 := by omega
    simp only [DecodeAMT, hversion, hsku, if_neg hlen, if_neg hm2]

/-- C8 at version 2.1.0 with SKU 1. -/
theorem DecodeAMT_legacy_is_enumerated_witness : DecodeAMT "2.1.0" "1" = "ASF + iQST" :=
  ((DecodeAMT_legacy_is_enumerated "2.1.0" "1" 2 1 (by decide) (by decide) (by decide)).1
    (by decide)).2.1 rfl

/-- C9: for a version string without any `.` and for every SKU string,
`DecodeAMT` answers `Invalid AMT version format`, whatever the SKU is. -/
theorem DecodeAMT_undotted_version (version SKU : String) (h : '.' ∉ version.toList) :
    DecodeAMT version SKU = "Invalid AMT version format" := by
  simp only [DecodeAMT, splitOnChar_no_sep '.' version.toList h, List.length_singleton,
    le_refl, if_true]

/-- C9 at the purely numeric version `200`. -/
theorem DecodeAMT_undotted_version_witness :
    DecodeAMT "200" "0" = "Invalid AMT version format" :=
  DecodeAMT_undotted_version "200" "0" (by decide)

end RpcGo
